import Mathlib

/-!
Shallow embedding of the mutation-testing / APR aggregation pipeline
(`scripts/compute_patches.py`, `scripts/generate_table.py`,
`scripts/run_one_project_both_final.py`, `scripts/run_mutation_repair.py`,
`scripts/summarize_mutation_by_project.py`, `scripts/evaluate_patches.py`,
`scripts/export_dev_patches.py`), together with theorems settling the
stated properties.

Files are modelled by their parsed line/row content; `Option` marks a file
that may be absent; `Except Unit` marks a Python computation that may raise.
-/

namespace Mutation

/-! ## Python primitives -/

/-- Strip leading and trailing whitespace from a character list. -/
def trimChars (l : List Char) : List Char :=
  ((l.dropWhile Char.isWhitespace).reverse.dropWhile Char.isWhitespace).reverse

/-- Python `str.strip()` (whitespace on both ends). -/
def pyStrip (s : String) : String := ⟨trimChars s.data⟩

/-- Python `str.upper()` (ASCII content in these logs). -/
def pyUpper (s : String) : String := ⟨s.data.map Char.toUpper⟩

/-- Python `str.lower()`. -/
def pyLower (s : String) : String := ⟨s.data.map Char.toLower⟩

/-- Auxiliary single-character split. -/
def splitOnCharAux (c : Char) : List Char → List Char → List (List Char)
  | [], cur => [cur.reverse]
  | x :: xs, cur =>
    if x = c then cur.reverse :: splitOnCharAux c xs []
    else splitOnCharAux c xs (x :: cur)

/-- Python `str.split(sep)` for a one-character separator (the only form the
scripts use; `split(":", 2)` agrees with the full split on indices 0 and 1,
which are the only indices read). -/
def pySplit (s : String) (c : Char) : List String :=
  (splitOnCharAux c s.data []).map String.mk

/-- Python `int(str)`: optional surrounding whitespace, optional sign, a
nonempty run of digits; anything else raises (`none` here). -/
def pyInt (s : String) : Option Int :=
  let t := trimChars s.data
  let (neg, ds) :=
    match t with
    | '-' :: rest => (true, rest)
    | '+' :: rest => (false, rest)
    | l => (false, l)
  if ds.isEmpty then none
  else if ds.all Char.isDigit then
    let n : Nat := ds.foldl (fun acc c => acc * 10 + (c.toNat - '0'.toNat)) 0
    some (if neg then -(n : Int) else (n : Int))
  else none

/-- Python truthiness of a string: `""` is falsy. -/
def pyTruthy (s : String) : Bool := s ≠ ""

/-- `row.get(k)` on a dict built from a CSV header: `""` when the column is
missing (both `None` and `""` are falsy, so this is or-chain equivalent). -/
def dictGet (r : List (String × String)) (k : String) : String :=
  match r.lookup k with
  | some v => v
  | none => ""

/-- Python or-chain `r.get(k1) or r.get(k2) or ... or ""`:
first non-falsy value. -/
def chainGet (r : List (String × String)) : List String → String
  | [] => ""
  | k :: ks => if pyTruthy (dictGet r k) then dictGet r k else chainGet r ks

/-! ## compute_patches.py -/

/-- One Python-dict update step for `status_by_id[mid] = v`
(`dict` keyed by `int`). -/
def dictInsert (m : List (Int × String)) (k : Int) (v : String) :
    List (Int × String) :=
  if m.any (fun p => p.1 = k) then
    m.map (fun p => if p.1 = k then (k, v) else p)
  else m ++ [(k, v)]

/-- `compute_patches.read_kill_file`: the argument is the full row list of
`kill.csv` (header first); the header row is skipped, rows shorter than 2
fields or with an unparseable id are skipped, and the remaining rows build
a map from mutant id to uppercased stripped status. -/
def read_kill_file (rows : List (List String)) : List (Int × String) :=
  let go : List (Int × String) → List (List String) → List (Int × String) :=
    fun init data =>
      data.foldl
        (fun acc row =>
          match row with
          | c0 :: c1 :: _ =>
            match pyInt c0 with
            | some mid => dictInsert acc mid (pyUpper (pyStrip c1))
            | none => acc
          | _ => acc)
        init
  match rows with
  | [] => []
  | _header :: data => go [] data

/-- Step function of `read_kill_file`, exposed for the length bound. -/
def killStep (acc : List (Int × String)) (row : List String) :
    List (Int × String) :=
  match row with
  | c0 :: c1 :: _ =>
    match pyInt c0 with
    | some mid => dictInsert acc mid (pyUpper (pyStrip c1))
    | none => acc
  | _ => acc

theorem read_kill_file_eq_foldl (header : List String)
    (data : List (List String)) :
    read_kill_file (header :: data) = data.foldl killStep [] := rfl

theorem dictInsert_length_le (m : List (Int × String)) (k : Int) (v : String) :
    (dictInsert m k v).length ≤ m.length + 1 := by
  unfold dictInsert
  split
  · simp
  · simp

theorem killStep_length_le (acc : List (Int × String)) (row : List String) :
    (killStep acc row).length ≤ acc.length + 1 := by
  unfold killStep
  split
  · split
    · exact dictInsert_length_le _ _ _
    · omega
  · omega

theorem foldl_killStep_length_le (data : List (List String)) :
    ∀ acc : List (Int × String),
      (data.foldl killStep acc).length ≤ acc.length + data.length := by
  induction data with
  | nil => intro acc; simp
  | cons row rest ih =>
    intro acc
    have h1 := killStep_length_le acc row
    have h2 := ih (killStep acc row)
    simp only [List.foldl_cons, List.length_cons]
    omega

theorem killStep_skip (acc : List (Int × String)) (row : List String)
    (h : pyInt (row.headD "") = none) : killStep acc row = acc := by
  unfold killStep
  match row with
  | [] => rfl
  | [c0] => rfl
  | c0 :: c1 :: rest =>
    simp only [List.headD_cons] at h
    simp [h]

/-- C6: the Log Reader's map has at most one entry per data row, and a data
row whose first field does not parse as an integer leaves the map unchanged
(it is skipped, no error is possible: `read_kill_file` is total). -/
theorem read_kill_file_size_le_and_skips_bad_ids :
    (∀ (header : List String) (data : List (List String)),
      (read_kill_file (header :: data)).length ≤ data.length) ∧
    (∀ (header : List String) (data : List (List String)) (row : List String),
      pyInt (row.headD "") = none →
      read_kill_file (header :: (data ++ [row])) =
        read_kill_file (header :: data)) := by
  constructor
  · intro header data
    rw [read_kill_file_eq_foldl]
    simpa using foldl_killStep_length_le data []
  · intro header data row h
    rw [read_kill_file_eq_foldl, read_kill_file_eq_foldl, List.foldl_append]
    simp [killStep_skip _ _ h]

/-- Witness for C6 at a concrete kill file: header plus two data rows, the
second with unparseable id `"x"`. -/
theorem read_kill_file_size_witness :
    (read_kill_file [["id", "status"], ["1", "live"], ["x", "killed"]]).length
        ≤ 2 ∧
    read_kill_file [["id", "status"], ["1", "live"], ["x", "killed"]] =
      read_kill_file [["id", "status"], ["1", "live"]] :=
  ⟨read_kill_file_size_le_and_skips_bad_ids.1 ["id", "status"]
      [["1", "live"], ["x", "killed"]],
   read_kill_file_size_le_and_skips_bad_ids.2 ["id", "status"]
      [["1", "live"]] ["x", "killed"] (by decide)⟩

/-! ### compute_patches.run_for_logs_root: per-bug and per-project counters -/

/-- The per-bug counters of `run_for_logs_root` for one bug folder whose
`kill.csv` parsed to `rows`: `total = len(status)`,
`plausible = len([m for m, s in status.items() if s == "LIVE"])`,
`incorrect = total - plausible`. -/
def bugTotals (rows : List (List String)) : Nat × Nat × Nat :=
  let status := read_kill_file rows
  let total := status.length
  let plaus := (status.filter (fun p => p.2 = "LIVE")).length
  (total, plaus, total - plaus)

/-- The `per_project` accumulation of `run_for_logs_root` over the bug
folders of one project that have a `kill.csv` (total, plausible, incorrect
summed bug by bug). -/
def projTotals (bugs : List (List (List String))) : Nat × Nat × Nat :=
  bugs.foldl
    (fun acc rows =>
      let t := bugTotals rows
      (acc.1 + t.1, acc.2.1 + t.2.1, acc.2.2 + t.2.2))
    (0, 0, 0)

theorem bugTotals_plaus_le (rows : List (List String)) :
    (bugTotals rows).2.1 ≤ (bugTotals rows).1 := by
  unfold bugTotals
  exact List.length_filter_le _ _

/-- C9: in every per-bug row, Plausible(LIVE) + Incorrect = TotalMutants,
and the same additive relation holds for the per-project sums. -/
theorem patch_counts_additive :
    (∀ rows : List (List String),
      (bugTotals rows).2.1 + (bugTotals rows).2.2 = (bugTotals rows).1) ∧
    (∀ bugs : List (List (List String)),
      (projTotals bugs).2.1 + (projTotals bugs).2.2 = (projTotals bugs).1) := by
  have hbug : ∀ rows : List (List String),
      (bugTotals rows).2.1 + (bugTotals rows).2.2 = (bugTotals rows).1 := by
    intro rows
    have h := bugTotals_plaus_le rows
    have : (bugTotals rows).2.2 = (bugTotals rows).1 - (bugTotals rows).2.1 := by
      unfold bugTotals
      rfl
    omega
  refine ⟨hbug, ?_⟩
  intro bugs
  unfold projTotals
  suffices h : ∀ acc : Nat × Nat × Nat, acc.2.1 + acc.2.2 = acc.1 →
      (bugs.foldl
        (fun acc rows =>
          let t := bugTotals rows
          (acc.1 + t.1, acc.2.1 + t.2.1, acc.2.2 + t.2.2))
        acc).2.1 +
      (bugs.foldl
        (fun acc rows =>
          let t := bugTotals rows
          (acc.1 + t.1, acc.2.1 + t.2.1, acc.2.2 + t.2.2))
        acc).2.2 =
      (bugs.foldl
        (fun acc rows =>
          let t := bugTotals rows
          (acc.1 + t.1, acc.2.1 + t.2.1, acc.2.2 + t.2.2))
        acc).1 by
    exact h (0, 0, 0) rfl
  induction bugs with
  | nil => intro acc hacc; simpa using hacc
  | cons rows rest ih =>
    intro acc hacc
    simp only [List.foldl_cons]
    exact ih _ (by have := hbug rows; dsimp only; omega)

/-! ## generate_table.py -/

/-- `generate_table.OPERATOR_MAP`. -/
def OPERATOR_MAP : List (String × String) :=
  [("ROR", "ROR"), ("COR", "COR"), ("LVR", "LVR"), ("STD", "STD"),
   ("AOR", "AOR"), ("SOR", "SOR"), ("LOR", "LOR"), ("ORU", "Other"),
   ("EVR", "Other")]

/-- `generate_table.normalize_operator`: take the operator text before any
`<`, look it up in `OPERATOR_MAP`, map anything unrecognized to `Other`. -/
def normalize_operator (rawOp : String) : String :=
  let base := (pySplit rawOp '<').headD ""
  match OPERATOR_MAP.lookup base with
  | some v => v
  | none => "Other"

/-- Python `set.add`. -/
def setAdd (s : List String) (x : String) : List String :=
  if x ∈ s then s else s ++ [x]

/-- `defaultdict(int)` increment `m[k] += 1`. -/
def counterInc (m : List (String × Nat)) (k : String) : List (String × Nat) :=
  if m.any (fun p => p.1 = k) then
    m.map (fun p => if p.1 = k then (p.1, p.2 + 1) else p)
  else m ++ [(k, 1)]

/-- `generate_table.parse_major_details`: inputs are the lines of
`mutants.log` (`none` when the file is absent) and the rows of `kill.csv`
(header row first, `none` when absent); result is
`(total, killed, survived, live_ops)`. -/
def parse_major_details (mutantsLog : Option (List String))
    (killCsv : Option (List (List String))) :
    Nat × Nat × Nat × List (String × Nat) :=
  match mutantsLog with
  | none => (0, 0, 0, [])
  | some lines =>
    let killedIds : List String :=
      match killCsv with
      | none => []
      | some rows =>
        (rows.drop 1).foldl
          (fun acc row =>
            match row with
            | [] => acc
            | _ :: _ =>
              let mid := row.headD ""
              let outcome := pyUpper (row.getLastD "")
              if outcome ∈ ["KILLED", "TIMEOUT", "MEMORY_ERROR",
                            "RUNTIME_ERROR", "EXC"] then
                setAdd acc mid
              else acc)
          []
    lines.foldl
      (fun st line =>
        match pySplit (pyStrip line) ':' with
        | p0 :: p1 :: _ =>
          if p0 ∈ killedIds then (st.1 + 1, st.2.1 + 1, st.2.2.1, st.2.2.2)
          else
            (st.1 + 1, st.2.1, st.2.2.1 + 1,
             counterInc st.2.2.2 (normalize_operator p1))
        | _ => st)
      (0, 0, 0, [])

/-- C5: on the log `1:ROR:...`, `2:COR:...`, `3:XYZ:...` with only mutant 2
KILLED, the live-operator table is `{ROR: 1, Other: 1}` with no COR entry. -/
theorem live_operator_table_example :
    parse_major_details
        (some ["1:ROR:x > y", "2:COR:a && b", "3:XYZ:z"])
        (some [["MutantNo", "Status"], ["2", "KILLED"]]) =
      (3, 1, 2, [("ROR", 1), ("Other", 1)]) ∧
    (parse_major_details
        (some ["1:ROR:x > y", "2:COR:a && b", "3:XYZ:z"])
        (some [["MutantNo", "Status"], ["2", "KILLED"]])).2.2.2.lookup "ROR" =
      some 1 ∧
    (parse_major_details
        (some ["1:ROR:x > y", "2:COR:a && b", "3:XYZ:z"])
        (some [["MutantNo", "Status"], ["2", "KILLED"]])).2.2.2.lookup "Other" =
      some 1 ∧
    (parse_major_details
        (some ["1:ROR:x > y", "2:COR:a && b", "3:XYZ:z"])
        (some [["MutantNo", "Status"], ["2", "KILLED"]])).2.2.2.lookup "COR" =
      none := by
  refine ⟨?_, ?_, ?_, ?_⟩ <;> decide

/-! ## run_one_project_both_final.py: engine count normalization -/

/-- First truthy string in a chain (`a or b or ... or ""`). -/
def firstTruthy : List String → String
  | [] => ""
  | s :: rest => if pyTruthy s then s else firstTruthy rest

/-- Status of a `kill.csv` `DictReader` row in `run_major`:
`(row.get("status") or ... or row.get("outcome") or "").lower()`. -/
def majorKillStatus (row : List (String × String)) : String :=
  pyLower (chainGet row ["status", "Status", "result", "Result", "outcome"])

/-- Count normalization of `run_major`: `gen`/`kill` are the regex matches
from captured stdout, `killCsv` the data rows of `kill.csv` when that file
exists (after the fallback copy); result is `(total, killed, survived)` as
written to `major_summary.csv`. -/
def majorCounts (gen kill : Option Int)
    (killCsv : Option (List (List (String × String)))) : Int × Int × Int :=
  let total0 := gen.getD 0
  let killed0 := kill.getD 0
  let (total, killed) :=
    match killCsv with
    | some rows =>
      if gen.isNone || kill.isNone then
        ((rows.length : Int),
         ((rows.filter (fun r =>
             majorKillStatus r ∈ ["killed", "timeout", "memoryerror"])).length
           : Int))
      else (total0, killed0)
    | none => (total0, killed0)
  (total, killed, max 0 (total - killed))

/-- Status of a PIT report `DictReader` row in `run_pit`. -/
def pitRowStatus (row : List (String × String)) : String :=
  pyLower (chainGet row ["Status", "status", "result", "Result"])

/-- Count normalization of `run_pit`: `report` is the first existing
mutations CSV (data rows), else the stdout regex matches are used, else
zeros; result is `(total, killed, survived)` as written to
`pit_summary.csv`. -/
def pitCounts (report : Option (List (List (String × String))))
    (gen kill : Option Int) : Int × Int × Int :=
  let (total, killed) :=
    match report with
    | none =>
      match gen, kill with
      | some g, some k => (g, k)
      | _, _ => ((0 : Int), (0 : Int))
    | some rows =>
      ((rows.length : Int),
       ((rows.filter (fun r =>
           pitRowStatus r ∈ ["killed", "timeout", "memoryerror"])).length
         : Int))
  (total, killed, max 0 (total - killed))

/-! ## summarize_mutation_by_project.py: parsing per-bug summary files -/

/-- Python `int(s)` on a string: raises on a non-numeric string. -/
def pyIntExc (s : String) : Except Unit Int :=
  match pyInt s with
  | some n => Except.ok n
  | none => Except.error ()

/-- `int(x or 0)` for a string field `x` (empty string is falsy). -/
def pyIntOr0 (s : String) : Except Unit Int :=
  if s = "" then Except.ok 0 else pyIntExc s

/-- The `(tot, kld, srv)` computation of `parse_mutation_summary_file` on
one row dict (keys lowercased, values stripped, `""` for a missing column):
`tot = int(mutants_total or total or mutants or 0)`, `kld = int(killed or
0)`, `srv = int(survived or (tot - kld if tot >= kld else 0))`. -/
def parseSummaryCounts (r : List (String × String)) :
    Except Unit (Int × Int × Int) :=
  match pyIntOr0 (chainGet r ["mutants_total", "total", "mutants"]) with
  | Except.error e => Except.error e
  | Except.ok tot =>
    match pyIntOr0 (chainGet r ["killed"]) with
    | Except.error e => Except.error e
    | Except.ok kld =>
      match (if chainGet r ["survived"] = "" then
               Except.ok (if kld ≤ tot then tot - kld else 0)
             else pyIntExc (chainGet r ["survived"])) with
      | Except.error e => Except.error e
      | Except.ok srv => Except.ok (tot, kld, srv)

/-- One per-bug tuple `(project, bug, tool, total, killed, survived)`. -/
structure PB where
  proj : String
  bug : String
  tool : String
  tot : Int
  kld : Int
  srv : Int
deriving DecidableEq, Repr

/-- `parse_mutation_summary_file` on one row: `some` tuple when the row has
(or inherits) a project and bug, `none` when the row is dropped; `ip`/`ib`
are the project/bug inferred from the file path (`""` when unavailable). -/
def parseSummaryFileRow (toolHint ip ib : String) (r : List (String × String)) :
    Except Unit (Option PB) :=
  let eng := pyUpper (pyStrip (firstTruthy [dictGet r "engine", toolHint]))
  let proj0 := pyStrip (dictGet r "project")
  let bug0 := pyStrip (dictGet r "bug")
  match parseSummaryCounts r with
  | Except.error e => Except.error e
  | Except.ok (tot, kld, srv) =>
    let proj := if pyTruthy proj0 then proj0 else ip
    let bug := if pyTruthy bug0 then bug0 else ib
    if pyTruthy proj ∧ pyTruthy bug then
      Except.ok (some ⟨proj, bug, firstTruthy [eng, toolHint], tot, kld, srv⟩)
    else
      Except.ok none

/-- `parse_mutation_summary_file`: all rows of one summary file. -/
def parse_mutation_summary_file (toolHint ip ib : String)
    (rows : List (List (String × String))) : Except Unit (List PB) :=
  match rows with
  | [] => Except.ok []
  | r :: rest =>
    match parseSummaryFileRow toolHint ip ib r with
    | Except.error e => Except.error e
    | Except.ok o =>
      match parse_mutation_summary_file toolHint ip ib rest with
      | Except.error e => Except.error e
      | Except.ok l => Except.ok (match o with | some t => t :: l | none => l)

/-- Counterexample to C1: a stored summary row reporting
`mutants_total = 5, killed = 5, survived = 99` is emitted by the aggregator
with `survived = 99`, not `max 0 (5 - 5) = 0`: the upstream `survived`
field is trusted whenever it is non-empty. -/
theorem survived_trusted_from_upstream_counterexample :
    parse_mutation_summary_file "MAJOR" "" ""
        [[("engine", "MAJOR"), ("project", "Lang"), ("bug", "1"),
          ("mutants_total", "5"), ("killed", "5"), ("survived", "99")]] =
      Except.ok [⟨"Lang", "1", "MAJOR", 5, 5, 99⟩] ∧
    ¬((99 : Int) = max 0 (5 - 5)) := by
  constructor
  · rfl
  · decide

/-- C1 (amended): the MAJOR and PIT runners always write
`survived = max 0 (total - killed)`; the aggregator recomputes survived
this way only when the stored `survived` field is empty or missing. -/
theorem survived_recomputed_amended :
    (∀ (gen kill : Option Int)
       (killCsv : Option (List (List (String × String)))),
      (majorCounts gen kill killCsv).2.2 =
        max 0 ((majorCounts gen kill killCsv).1 -
               (majorCounts gen kill killCsv).2.1)) ∧
    (∀ (report : Option (List (List (String × String))))
       (gen kill : Option Int),
      (pitCounts report gen kill).2.2 =
        max 0 ((pitCounts report gen kill).1 -
               (pitCounts report gen kill).2.1)) ∧
    (∀ (r : List (String × String)) (t k s : Int),
      parseSummaryCounts r = Except.ok (t, k, s) →
      chainGet r ["survived"] = "" →
      s = max 0 (t - k)) := by
  refine ⟨?_, ?_, ?_⟩
  · intro gen kill killCsv
    cases killCsv with
    | none => rfl
    | some rows =>
      cases gen with
      | none => rfl
      | some g => cases kill with
        | none => rfl
        | some k => rfl
  · intro report gen kill
    cases report with
    | none => cases gen with
      | none => rfl
      | some g => cases kill with
        | none => rfl
        | some k => rfl
    | some rows => rfl
  · intro r t k s hok hsrv
    unfold parseSummaryCounts at hok
    rw [hsrv] at hok
    simp only [if_pos rfl] at hok
    cases h1 : pyIntOr0 (chainGet r ["mutants_total", "total", "mutants"]) with
    | error e => rw [h1] at hok; cases hok
    | ok tot =>
      rw [h1] at hok
      cases h2 : pyIntOr0 (chainGet r ["killed"]) with
      | error e => rw [h2] at hok; cases hok
      | ok kld =>
        rw [h2] at hok
        simp only [Except.ok.injEq, Prod.mk.injEq] at hok
        obtain ⟨rfl, rfl, rfl⟩ := hok
        rcases le_or_lt k t with h | h
        · rw [if_pos h, max_eq_right (by omega)]
        · rw [if_neg (not_le.mpr h), max_eq_left (by omega)]

/-- Witness for the amended C1 at a MAJOR run with `gen = 5, kill = 2` and
a stored row `mutants_total = 5, killed = 2` without a survived column. -/
theorem survived_recomputed_amended_witness :
    (majorCounts (some 5) (some 2) none).2.2 =
      max 0 ((majorCounts (some 5) (some 2) none).1 -
             (majorCounts (some 5) (some 2) none).2.1) ∧
    (3 : Int) = max 0 (5 - 2) :=
  ⟨survived_recomputed_amended.1 (some 5) (some 2) none,
   survived_recomputed_amended.2.2 [("mutants_total", "5"), ("killed", "2")]
     5 2 3 rfl rfl⟩

/-! ## summarize_mutation_by_project.aggregate_mutation

The two `defaultdict` accumulators: `agg_by_tool` keyed by
`(project, tool)` and `agg_all` keyed by `project`, each summing
`(total, killed, survived)` over the per-bug tuples.  The `bugs` sets feed
only the `bugs_covered` column, which does not enter the totals the claim
relates, so they are not carried here. -/

/-- The summed `(total, killed, survived)` triple of one accumulator
entry. -/
abbrev Triple := Int × Int × Int

/-- Componentwise addition (`A["total"] += tot` etc.). -/
def addT (a b : Triple) : Triple := (a.1 + b.1, a.2.1 + b.2.1, a.2.2 + b.2.2)

/-- The `(tot, kld, srv)` contribution of one per-bug tuple. -/
def pbT (e : PB) : Triple := (e.tot, e.kld, e.srv)

/-- `defaultdict` update: add `v` into the entry at `k` (0 if absent). -/
def aggUpd {κ : Type} [DecidableEq κ] (m : List (κ × Triple)) (k : κ)
    (v : Triple) : List (κ × Triple) :=
  match m with
  | [] => [(k, v)]
  | p :: rest =>
    if p.1 = k then (p.1, addT p.2 v) :: rest else p :: aggUpd rest k v

/-- `defaultdict` read: the entry at `k`, `(0, 0, 0)` if absent. -/
def lookupT {κ : Type} [DecidableEq κ] (m : List (κ × Triple)) (k : κ) :
    Triple :=
  match m with
  | [] => (0, 0, 0)
  | p :: rest => if p.1 = k then p.2 else lookupT rest k

/-- `agg_by_tool` of `aggregate_mutation`. -/
def agg_by_tool (l : List PB) : List ((String × String) × Triple) :=
  l.foldl (fun m e => aggUpd m (e.proj, e.tool) (pbT e)) []

/-- `agg_all` of `aggregate_mutation`. -/
def agg_all (l : List PB) : List (String × Triple) :=
  l.foldl (fun m e => aggUpd m e.proj (pbT e)) []

/-- Sum of the contributions of a tuple list. -/
def sumT : List PB → Triple
  | [] => (0, 0, 0)
  | e :: rest => addT (pbT e) (sumT rest)

/-- Sum of a list of triples. -/
def sumTlist : List Triple → Triple
  | [] => (0, 0, 0)
  | x :: rest => addT x (sumTlist rest)

/-- The distinct tools that appear for project `p`: one per-engine row of
`proj_rows` exists for exactly each of these. -/
def toolsOf (l : List PB) (p : String) : List String :=
  ((l.filter (fun e => decide (e.proj = p))).map PB.tool).dedup

theorem addT_zero_left (v : Triple) : addT (0, 0, 0) v = v := by
  cases v with
  | mk a bc => cases bc with
    | mk b c => simp [addT]

theorem addT_zero_right (v : Triple) : addT v (0, 0, 0) = v := by
  cases v with
  | mk a bc => cases bc with
    | mk b c => simp [addT]

theorem addT_assoc (a b c : Triple) :
    addT (addT a b) c = addT a (addT b c) := by
  simp only [addT, Prod.mk.injEq]
  omega

theorem addT_comm (a b : Triple) : addT a b = addT b a := by
  simp only [addT, Prod.mk.injEq]
  omega

theorem addT_left_comm (a b c : Triple) :
    addT a (addT b c) = addT b (addT a c) := by
  simp only [addT, Prod.mk.injEq]
  omega

theorem lookupT_aggUpd_same {κ : Type} [DecidableEq κ]
    (m : List (κ × Triple)) (k : κ) (v : Triple) :
    lookupT (aggUpd m k v) k = addT (lookupT m k) v := by
  induction m with
  | nil =>
    show lookupT [(k, v)] k = addT (lookupT ([] : List (κ × Triple)) k) v
    rw [show lookupT [(k, v)] k = v from by simp [lookupT]]
    exact (addT_zero_left v).symm
  | cons p rest ih =>
    by_cases h : p.1 = k
    · simp [aggUpd, lookupT, h]
    · simp only [aggUpd, if_neg h, lookupT, if_neg h, ih]

theorem lookupT_aggUpd_other {κ : Type} [DecidableEq κ]
    (m : List (κ × Triple)) (k k' : κ) (v : Triple) (hkk : k' ≠ k) :
    lookupT (aggUpd m k v) k' = lookupT m k' := by
  induction m with
  | nil =>
    show lookupT [(k, v)] k' = lookupT ([] : List (κ × Triple)) k'
    simp only [lookupT]
    rw [if_neg (fun hh : k = k' => hkk hh.symm)]
  | cons p rest ih =>
    by_cases h : p.1 = k
    · have hne : ¬(p.1 = k') := fun hh => hkk (hh.symm.trans h)
      simp only [aggUpd, if_pos h, lookupT, if_neg hne]
    · by_cases h2 : p.1 = k'
      · simp only [aggUpd, if_neg h, lookupT, if_pos h2]
      · simp only [aggUpd, if_neg h, lookupT, if_neg h2, ih]

theorem lookupT_aggFold {κ : Type} [DecidableEq κ] (key : PB → κ) :
    ∀ (l : List PB) (m : List (κ × Triple)) (k : κ),
      lookupT (l.foldl (fun m e => aggUpd m (key e) (pbT e)) m) k =
        addT (lookupT m k) (sumT (l.filter (fun e => decide (key e = k)))) := by
  intro l
  induction l with
  | nil =>
    intro m k
    simp only [List.foldl_nil, List.filter_nil, sumT]
    exact (addT_zero_right _).symm
  | cons e rest ih =>
    intro m k
    simp only [List.foldl_cons, List.filter_cons]
    by_cases h : key e = k
    · simp only [h, decide_eq_true_eq, if_pos rfl, sumT]
      rw [ih, lookupT_aggUpd_same]
      exact addT_assoc _ _ _
    · rw [if_neg (by simpa using h)]
      rw [ih, lookupT_aggUpd_other _ _ _ _ (fun hh => h hh.symm)]

theorem sumT_filter_split (q : PB → Bool) (l : List PB) :
    sumT l = addT (sumT (l.filter q)) (sumT (l.filter (fun e => !q e))) := by
  induction l with
  | nil =>
    simp only [List.filter_nil, sumT]
    exact (addT_zero_left _).symm
  | cons e rest ih =>
    by_cases h : q e
    · rw [List.filter_cons, List.filter_cons, if_pos (by simp [h]),
          if_neg (by simp [h])]
      simp only [sumT]
      rw [ih, addT_assoc]
    · rw [List.filter_cons, List.filter_cons, if_neg (by simp [h]),
          if_pos (by simp [h])]
      simp only [sumT]
      rw [ih]
      exact addT_left_comm _ _ _

theorem partition_sum :
    ∀ (ts : List String) (l : List PB), ts.Nodup →
      (∀ e ∈ l, e.tool ∈ ts) →
      sumTlist (ts.map (fun t =>
        sumT (l.filter (fun e => decide (e.tool = t))))) = sumT l := by
  intro ts
  induction ts with
  | nil =>
    intro l _ hall
    cases l with
    | nil => rfl
    | cons e rest => exact absurd (hall e (by simp)) (by simp)
  | cons t ts ih =>
    intro l hnd hall
    simp only [List.map_cons, sumTlist]
    have hts : ∀ t' ∈ ts,
        l.filter (fun e => decide (e.tool = t')) =
          (l.filter (fun e => !decide (e.tool = t))).filter
            (fun e => decide (e.tool = t')) := by
      intro t' ht'
      have htne : t' ≠ t := by
        intro hh
        subst hh
        exact (List.nodup_cons.mp hnd).1 ht'
      rw [List.filter_filter]
      apply List.filter_congr
      intro e _
      by_cases he : e.tool = t'
      · simp [he, htne]
      · simp [he]
    have hmap : ts.map (fun t' =>
        sumT (l.filter (fun e => decide (e.tool = t')))) =
        ts.map (fun t' =>
          sumT ((l.filter (fun e => !decide (e.tool = t))).filter
            (fun e => decide (e.tool = t')))) :=
      List.map_congr_left (fun t' ht' => by rw [hts t' ht'])
    rw [hmap, ih (l.filter (fun e => !decide (e.tool = t)))
      (List.nodup_cons.mp hnd).2
      (by
        intro e he
        rcases List.mem_filter.mp he with ⟨hel, hne⟩
        rcases List.mem_cons.mp (hall e hel) with h | h
        · simp [h] at hne
        · exact h)]
    exact (sumT_filter_split (fun e => decide (e.tool = t)) l).symm

theorem filter_key_pair (l : List PB) (p t : String) :
    l.filter (fun e => decide ((e.proj, e.tool) = (p, t))) =
      (l.filter (fun e => decide (e.proj = p))).filter
        (fun e => decide (e.tool = t)) := by
  rw [List.filter_filter]
  apply List.filter_congr
  intro e _
  by_cases h1 : e.proj = p <;> by_cases h2 : e.tool = t <;>
    simp [h1, h2, Prod.ext_iff]

/-- C4: for every tuple list and project, the sum over the per-engine rows
(one per distinct tool of that project) of the accumulated
`(mutants_total, killed, survived)` equals the MAJOR+PIT row's triple. -/
theorem major_plus_pit_row_is_sum_of_engine_rows (l : List PB) (p : String) :
    sumTlist ((toolsOf l p).map (fun t => lookupT (agg_by_tool l) (p, t))) =
      lookupT (agg_all l) p := by
  have hby : ∀ t, lookupT (agg_by_tool l) (p, t) =
      sumT (l.filter (fun e => decide ((e.proj, e.tool) = (p, t)))) := by
    intro t
    unfold agg_by_tool
    rw [lookupT_aggFold (fun e => (e.proj, e.tool)) l [] (p, t)]
    simp only [lookupT]
    exact addT_zero_left _
  have hall : lookupT (agg_all l) p =
      sumT (l.filter (fun e => decide (e.proj = p))) := by
    unfold agg_all
    rw [lookupT_aggFold PB.proj l [] p]
    simp only [lookupT]
    exact addT_zero_left _
  rw [hall]
  have hmap : (toolsOf l p).map (fun t => lookupT (agg_by_tool l) (p, t)) =
      (toolsOf l p).map (fun t =>
        sumT ((l.filter (fun e => decide (e.proj = p))).filter
          (fun e => decide (e.tool = t)))) :=
    List.map_congr_left (fun t _ => by rw [hby t, filter_key_pair])
  rw [hmap]
  exact partition_sum (toolsOf l p) (l.filter (fun e => decide (e.proj = p)))
    (List.nodup_dedup _)
    (fun e he => List.mem_dedup.mpr (List.mem_map_of_mem PB.tool he))

/-! ## run_one_project_both_final.py: skip path of process_one_bug -/

/-- The two per-bug summary files of one bug directory: parsed row lists,
`none` when the file does not exist on disk. -/
structure BugFS where
  majorCsv : Option (List (List String))
  pitCsv : Option (List (List String))

/-- `_read_single` in `load_existing_summaries`: skip the header row and
return the first remaining row (even an empty one); `none` when the file
is missing or has no second row. -/
def readFirstDataRow (file : Option (List (List String))) :
    Option (List String) :=
  match file with
  | none => none
  | some rows => (rows.drop 1).head?

/-- `load_existing_summaries`: `some [major_row, pit_row]` when both rows
are truthy (present and non-empty), else `none`. -/
def load_existing_summaries (fs : BugFS) : Option (List (List String)) :=
  match readFirstDataRow fs.majorCsv, readFirstDataRow fs.pitCsv with
  | some (a :: as), some (b :: bs) => some [a :: as, b :: bs]
  | _, _ => none

/-- Environment of one full (non-skipped) `process_one_bug` run: whether
the fixed-revision checkout directory already exists, whether the two
`defects4j compile` invocations (which `run` checks) succeed, and the
engine artifacts feeding `majorCounts` / `pitCounts`. -/
structure BugWorld where
  fixedDirExists : Bool
  checkoutOk : Bool
  majorCompileOk : Bool
  majorGen : Option Int
  majorKill : Option Int
  majorKillCsv : Option (List (List (String × String)))
  pitCompileOk : Bool
  pitReport : Option (List (List (String × String)))
  pitGen : Option Int
  pitKill : Option Int

/-- `process_one_bug`: result rows (`Except.error` when a checked
subprocess fails and the `RuntimeError` propagates) paired with the number
of external subprocess invocations performed. The full path invokes
checkout (when the work directory is absent), `compile` + `mutation` for
MAJOR, then — the second `checkout_rev` hits the now-existing directory —
`compile` + `export` + `mutation` for PIT. -/
def process_one_bug (proj bug : String) (fs : BugFS) (w : BugWorld) :
    Except Unit (List (List String)) × Nat :=
  match load_existing_summaries fs with
  | some rows => (Except.ok rows, 0)
  | none =>
    let afterCheckout : Nat → Except Unit (List (List String)) × Nat :=
      fun n1 =>
        if w.majorCompileOk then
          let mc := majorCounts w.majorGen w.majorKill w.majorKillCsv
          if w.pitCompileOk then
            let pc := pitCounts w.pitReport w.pitGen w.pitKill
            (Except.ok
              [["MAJOR", proj, bug, toString mc.1, toString mc.2.1,
                toString mc.2.2],
               ["PIT", proj, bug, toString pc.1, toString pc.2.1,
                toString pc.2.2]],
             n1 + 5)
          else (Except.error (), n1 + 3)
        else (Except.error (), n1 + 1)
    if w.fixedDirExists then afterCheckout 0
    else if w.checkoutOk then afterCheckout 1
    else (Except.error (), 1)

/-- Counterexample to C3: both summary files exist on disk, but
`major_summary.csv` is header-only, so its first data row is missing and
the full workflow runs anyway: five subprocesses, not zero. -/
theorem skip_requires_data_rows_counterexample :
    (BugFS.mk
        (some [["engine", "project", "bug", "mutants_total", "killed",
                "survived"]])
        (some [["engine", "project", "bug", "mutants_total", "killed",
                "survived"],
               ["PIT", "Lang", "1", "0", "0", "0"]])).majorCsv.isSome = true ∧
    (BugFS.mk
        (some [["engine", "project", "bug", "mutants_total", "killed",
                "survived"]])
        (some [["engine", "project", "bug", "mutants_total", "killed",
                "survived"],
               ["PIT", "Lang", "1", "0", "0", "0"]])).pitCsv.isSome = true ∧
    (process_one_bug "Lang" "1"
        (BugFS.mk
          (some [["engine", "project", "bug", "mutants_total", "killed",
                  "survived"]])
          (some [["engine", "project", "bug", "mutants_total", "killed",
                  "survived"],
                 ["PIT", "Lang", "1", "0", "0", "0"]]))
        (BugWorld.mk true true true (some 0) (some 0) none true none
          (some 0) (some 0))).2 = 5 ∧
    (5 : Nat) ≠ 0 := by
  refine ⟨rfl, rfl, rfl, by decide⟩

/-- C3 (amended): whenever both summary files exist and each contains a
non-empty first data row, `process_one_bug` performs zero subprocess
invocations and returns exactly those two stored rows unchanged; a file
that is missing (or yields no truthy data row) sends the bug through the
full workflow instead. -/
theorem skip_path_returns_stored_rows (proj bug : String) (fs : BugFS)
    (w : BugWorld) (a b : String) (as bs : List String)
    (hm : readFirstDataRow fs.majorCsv = some (a :: as))
    (hp : readFirstDataRow fs.pitCsv = some (b :: bs)) :
    process_one_bug proj bug fs w = (Except.ok [a :: as, b :: bs], 0) := by
  unfold process_one_bug load_existing_summaries
  rw [hm, hp]

/-- Witness for the amended C3 at a concrete pair of stored summaries. -/
theorem skip_path_returns_stored_rows_witness :
    process_one_bug "Lang" "1"
        (BugFS.mk
          (some [["engine", "project", "bug", "mutants_total", "killed",
                  "survived"],
                 ["MAJOR", "Lang", "1", "7", "4", "3"]])
          (some [["engine", "project", "bug", "mutants_total", "killed",
                  "survived"],
                 ["PIT", "Lang", "1", "9", "9", "0"]]))
        (BugWorld.mk false false false none none none false none none
          none) =
      (Except.ok [["MAJOR", "Lang", "1", "7", "4", "3"],
                  ["PIT", "Lang", "1", "9", "9", "0"]], 0) :=
  skip_path_returns_stored_rows "Lang" "1" _ _ "MAJOR" "PIT"
    ["Lang", "1", "7", "4", "3"] ["Lang", "1", "9", "9", "0"] rfl rfl

/-! ## run_mutation_repair.py -/

/-- Environment of one `process_bug` call. `checkout`, `triggerExport` and
`compile` are the three steps the function wraps in `try/except`; the
per-mutant `validate_mutant` calls and the final `shutil.rmtree` cleanup
are not wrapped, so their exceptions escape the function. -/
structure RepairWorld where
  parseLive : List String
  totalGen : Nat
  checkout : Except Unit Unit
  triggerExport : Except Unit (List String)
  compile : Except Unit Unit
  validate : String → Except Unit Bool
  cleanup : Except Unit Unit

/-- One row of `{project}_apr_summary.csv`:
`[Project, Bug, Gen_Patches, Plausible_Patches, Correct_Patches]`. -/
structure AprRow where
  proj : String
  bug : String
  gen : Nat
  plaus : Nat
  correct : Nat
deriving DecidableEq, Repr

/-- The validation loop over the live mutant ids: counts the mutants whose
triggering test passes; an exception from any `validate_mutant` call
propagates. -/
def countPlausible (v : String → Except Unit Bool) :
    List String → Except Unit Nat
  | [] => Except.ok 0
  | m :: ms =>
    match v m with
    | Except.error e => Except.error e
    | Except.ok b =>
      match countPlausible v ms with
      | Except.error e => Except.error e
      | Except.ok n => Except.ok (if b then n + 1 else n)

/-- `run_mutation_repair.process_bug`: the zero/placeholder row
`[project, bug, total_gen, 0, 0]` on an empty candidate list or on a
caught checkout/trigger/compile failure; the final row
`[project, bug, total_gen, plausible, plausible]` on success; an
escaping exception (`Except.error`) when validation or cleanup raises. -/
def process_bug (proj bug : String) (w : RepairWorld) : Except Unit AprRow :=
  if w.parseLive.isEmpty then Except.ok ⟨proj, bug, w.totalGen, 0, 0⟩
  else
    match w.checkout with
    | Except.error _ => Except.ok ⟨proj, bug, w.totalGen, 0, 0⟩
    | Except.ok _ =>
      match w.triggerExport with
      | Except.error _ => Except.ok ⟨proj, bug, w.totalGen, 0, 0⟩
      | Except.ok triggers =>
        if triggers.isEmpty then Except.ok ⟨proj, bug, w.totalGen, 0, 0⟩
        else
          match w.compile with
          | Except.error _ => Except.ok ⟨proj, bug, w.totalGen, 0, 0⟩
          | Except.ok _ =>
            match countPlausible w.validate w.parseLive with
            | Except.error e => Except.error e
            | Except.ok cnt =>
              match w.cleanup with
              | Except.error e => Except.error e
              | Except.ok _ => Except.ok ⟨proj, bug, w.totalGen, cnt, cnt⟩

/-- The data rows appended to `{project}_apr_summary.csv` by `main`: one
per bug whose worker returned normally; when `fut.result()` (or the
sequential call) raises, the exception is caught, a message is printed,
and no row is written. -/
def repairMainRows (proj : String) (bugs : List String)
    (worlds : String → RepairWorld) : List AprRow :=
  bugs.flatMap (fun b =>
    match process_bug proj b (worlds b) with
    | Except.ok r => [r]
    | Except.error _ => [])

theorem repairMainRows_length (proj : String) :
    ∀ (bugs : List String) (worlds : String → RepairWorld),
      (∀ b ∈ bugs, ∃ r, process_bug proj b (worlds b) = Except.ok r) →
      (repairMainRows proj bugs worlds).length = bugs.length := by
  intro bugs
  induction bugs with
  | nil => intro worlds _; rfl
  | cons b rest ih =>
    intro worlds hall
    rcases hall b (List.mem_cons_self b rest) with ⟨r, hr⟩
    have ihr := ih worlds (fun x hx => hall x (List.mem_cons_of_mem b hx))
    unfold repairMainRows at ihr ⊢
    rw [List.flatMap_cons, hr]
    simp [ihr]

/-- Counterexample to C2: one requested bug whose per-mutant validation
raises; the worker function propagates the exception, the driver catches
it without writing a row, and the output has zero data rows, not one. -/
theorem worker_exception_loses_row_counterexample :
    (repairMainRows "Lang" ["1"]
        (fun _ =>
          RepairWorld.mk ["5"] 1 (Except.ok ()) (Except.ok ["org.T::test"])
            (Except.ok ()) (fun _ => Except.error ()) (Except.ok ()))).length
      = 0 ∧
    (0 : Nat) ≠ (["1"] : List String).length := by
  exact ⟨rfl, by decide⟩

theorem process_bug_checkout_failure_placeholder (proj bug : String)
    (w : RepairWorld) (hne : w.parseLive.isEmpty = false)
    (hco : w.checkout = Except.error ()) :
    process_bug proj bug w = Except.ok ⟨proj, bug, w.totalGen, 0, 0⟩ := by
  unfold process_bug
  rw [hne, hco]
  rfl

/-- C2 (amended): exceptions in the guarded steps (checkout, triggering
test export, instrumented compile) are converted to the zero placeholder
row, and whenever every requested bug's worker returns normally the output
has exactly one data row per requested bug id; but an exception escaping a
worker (validation or cleanup) drops that bug's row. -/
theorem batch_rows_match_bugs_amended :
    (∀ (proj bug : String) (w : RepairWorld),
      w.parseLive.isEmpty = false → w.checkout = Except.error () →
      process_bug proj bug w = Except.ok ⟨proj, bug, w.totalGen, 0, 0⟩) ∧
    (∀ (proj bug : String) (w : RepairWorld),
      w.parseLive.isEmpty = false → w.checkout = Except.ok () →
      w.triggerExport = Except.error () →
      process_bug proj bug w = Except.ok ⟨proj, bug, w.totalGen, 0, 0⟩) ∧
    (∀ (proj bug : String) (w : RepairWorld) (triggers : List String),
      w.parseLive.isEmpty = false → w.checkout = Except.ok () →
      w.triggerExport = Except.ok triggers → triggers.isEmpty = false →
      w.compile = Except.error () →
      process_bug proj bug w = Except.ok ⟨proj, bug, w.totalGen, 0, 0⟩) ∧
    (∀ (proj : String) (bugs : List String)
       (worlds : String → RepairWorld),
      (∀ b ∈ bugs, ∃ r, process_bug proj b (worlds b) = Except.ok r) →
      (repairMainRows proj bugs worlds).length = bugs.length) := by
  refine ⟨process_bug_checkout_failure_placeholder, ?_, ?_,
    repairMainRows_length⟩
  · intro proj bug w hne hco htr
    unfold process_bug
    rw [hne, hco, htr]
    rfl
  · intro proj bug w triggers hne hco htr htrne hcp
    unfold process_bug
    rw [hne]
    simp [hco, htr, htrne, hcp]

/-- Witness for the amended C2: a caught checkout failure yields the
placeholder row, and an all-successful two-bug batch yields two rows. -/
theorem batch_rows_match_bugs_amended_witness :
    process_bug "Lang" "1"
        (RepairWorld.mk ["5"] 3 (Except.error ()) (Except.ok [])
          (Except.ok ()) (fun _ => Except.ok true) (Except.ok ())) =
      Except.ok ⟨"Lang", "1", 3, 0, 0⟩ ∧
    (repairMainRows "Lang" ["1", "2"]
        (fun _ =>
          RepairWorld.mk [] 0 (Except.ok ()) (Except.ok [])
            (Except.ok ()) (fun _ => Except.ok true)
            (Except.ok ()))).length = (["1", "2"] : List String).length :=
  ⟨batch_rows_match_bugs_amended.1 "Lang" "1" _ rfl rfl,
   batch_rows_match_bugs_amended.2.2.2 "Lang" ["1", "2"] _
     (fun b _ => ⟨⟨"Lang", b, 0, 0, 0⟩, rfl⟩)⟩

theorem process_bug_ok_correct_eq_plaus (proj bug : String)
    (w : RepairWorld) (r : AprRow)
    (h : process_bug proj bug w = Except.ok r) : r.correct = r.plaus := by
  obtain ⟨pl, tg, co, tr, cp, va, cl⟩ := w
  cases pl with
  | nil => cases h; rfl
  | cons m ms =>
    cases co with
    | error e => cases h; rfl
    | ok u =>
      cases tr with
      | error e => cases h; rfl
      | ok triggers =>
        cases triggers with
        | nil => cases h; rfl
        | cons t ts =>
          cases cp with
          | error e => cases h; rfl
          | ok u2 =>
            unfold process_bug at h
            simp only [List.isEmpty_cons, List.isEmpty_nil] at h
            cases hcnt : countPlausible va (m :: ms) with
            | error e => rw [hcnt] at h; cases h
            | ok cnt =>
              rw [hcnt] at h
              cases cl with
              | error e => cases h
              | ok u3 => cases h; rfl

/-- C7: every APR summary row written by the repair pipeline has
`Correct_Patches` equal to `Plausible_Patches` (the correct-patch value is
a placeholder copied from the plausible count). -/
theorem apr_rows_correct_equals_plaus (proj : String)
    (bugs : List String) (worlds : String → RepairWorld) (r : AprRow)
    (hr : r ∈ repairMainRows proj bugs worlds) : r.correct = r.plaus := by
  unfold repairMainRows at hr
  rcases List.mem_flatMap.mp hr with ⟨b, hb, hrb⟩
  cases hpb : process_bug proj b (worlds b) with
  | error e =>
    rw [hpb] at hrb
    cases hrb
  | ok row =>
    rw [hpb] at hrb
    have hrr : r = row := List.mem_singleton.mp hrb
    subst hrr
    exact process_bug_ok_correct_eq_plaus proj b (worlds b) r hpb

/-- Witness for C7 at a one-bug batch with two plausible mutants. -/
theorem apr_rows_correct_equals_plaus_witness :
    (AprRow.mk "Lang" "1" 2 2 2).correct =
      (AprRow.mk "Lang" "1" 2 2 2).plaus :=
  apr_rows_correct_equals_plaus "Lang" ["1"]
    (fun _ =>
      RepairWorld.mk ["5", "6"] 2 (Except.ok ()) (Except.ok ["org.T::t"])
        (Except.ok ()) (fun _ => Except.ok true) (Except.ok ()))
    (AprRow.mk "Lang" "1" 2 2 2) (by exact List.mem_singleton.mpr rfl)

/-! ## evaluate_patches.py and export_dev_patches.py: list_bugs -/

/-- `re.match(r"^\d+", line)`: the line begins with a digit. -/
def startsWithDigit (s : String) : Bool :=
  match s.data with
  | c :: _ => c.isDigit
  | [] => false

/-- Python `sorted(set_of_ids, key=int)` (decorate with the `int` key,
sort, undecorate); if any key computation raises, `sorted` raises. Tie
order among distinct strings with equal integer keys is whatever the sort
produces; none of the stated properties observe it. -/
def sortByIntKey (l : List String) : Except Unit (List String) :=
  if l.all (fun s => (pyInt s).isSome) then
    Except.ok
      (((l.map (fun s => ((pyInt s).getD 0, s))).mergeSort
          (fun a b => decide (a.1 ≤ b.1))).map Prod.snd)
  else Except.error ()

/-- `evaluate_patches.list_bugs` on the content lines of
`active-bugs.csv`: keep lines starting with a digit, take the first
comma-field of the stripped line, deduplicate, sort numerically. -/
def evaluate_patches_list_bugs (content : List String) :
    Except Unit (List String) :=
  sortByIntKey
    (((content.filter startsWithDigit).map
        (fun line => (pySplit (pyStrip line) ',').headD "")).dedup)

/-- `export_dev_patches.list_bugs` on the content lines of
`active-bugs.csv`: keep lines starting with a digit, take the first
comma-field of the stripped line, deduplicate, sort numerically. -/
def export_dev_patches_list_bugs (content : List String) :
    Except Unit (List String) :=
  sortByIntKey
    (((content.filter startsWithDigit).map
        (fun line => (pySplit (pyStrip line) ',').headD "")).dedup)

theorem map_snd_decorate (l : List String) :
    (l.map (fun s => ((pyInt s).getD 0, s))).map Prod.snd = l := by
  induction l with
  | nil => rfl
  | cons a t ih => simp [ih]

theorem sortByIntKey_ok_properties (l out : List String) (hnd : l.Nodup)
    (h : sortByIntKey l = Except.ok out) :
    out.Nodup ∧
    out.Pairwise (fun a b => (pyInt a).getD 0 ≤ (pyInt b).getD 0) := by
  unfold sortByIntKey at h
  split at h
  case isFalse => cases h
  case isTrue hall =>
    injection h with h
    subst h
    have hperm :
        List.Perm
          ((l.map (fun s => ((pyInt s).getD 0, s))).mergeSort
            (fun a b => decide (a.1 ≤ b.1)))
          (l.map (fun s => ((pyInt s).getD 0, s))) :=
      List.mergeSort_perm _ _
    constructor
    · have h2 := (hperm.map Prod.snd).nodup_iff
      rw [map_snd_decorate] at h2
      exact h2.mpr hnd
    · have hs := @List.sorted_mergeSort (Int × String)
        (fun a b => decide (a.1 ≤ b.1))
        (fun a b c h1 h2 => by
          simp only [decide_eq_true_eq] at h1 h2 ⊢
          omega)
        (fun a b => by
          rcases le_total a.1 b.1 with h | h <;> simp [h])
        (l.map (fun s => ((pyInt s).getD 0, s)))
      rw [List.pairwise_map]
      refine hs.imp_of_mem ?_
      intro p q hp hq hle
      have hp2 := List.mem_map.mp (hperm.mem_iff.mp hp)
      have hq2 := List.mem_map.mp (hperm.mem_iff.mp hq)
      rcases hp2 with ⟨sp, _, rfl⟩
      rcases hq2 with ⟨sq, _, rfl⟩
      simpa using hle

/-- C10: the two bug-enumeration functions are extensionally equal, and on
success both return a duplicate-free list sorted in increasing numeric
order of the bug ids. -/
theorem list_bugs_functions_equivalent :
    (∀ content : List String,
      evaluate_patches_list_bugs content = export_dev_patches_list_bugs
        content) ∧
    (∀ (content : List String) (out : List String),
      evaluate_patches_list_bugs content = Except.ok out →
      out.Nodup ∧
      out.Pairwise (fun a b => (pyInt a).getD 0 ≤ (pyInt b).getD 0)) := by
  refine ⟨fun _ => rfl, ?_⟩
  intro content out h
  exact sortByIntKey_ok_properties _ out (List.nodup_dedup _) h

unseal List.merge List.mergeSort in
/-- Witness for C10 on a concrete `active-bugs.csv` content. -/
theorem list_bugs_functions_equivalent_witness :
    evaluate_patches_list_bugs ["2,rev2", "1,rev1", "# comment"] =
      export_dev_patches_list_bugs ["2,rev2", "1,rev1", "# comment"] ∧
    ((["1", "2"] : List String).Nodup ∧
      (["1", "2"] : List String).Pairwise
        (fun a b => (pyInt a).getD 0 ≤ (pyInt b).getD 0)) :=
  ⟨list_bugs_functions_equivalent.1 ["2,rev2", "1,rev1", "# comment"],
   list_bugs_functions_equivalent.2 ["2,rev2", "1,rev1", "# comment"]
     ["1", "2"] (by rfl)⟩

/-! ## Zero-bug reporting behaviour of the three stages -/

/-- The combined `{project}_summary.csv` written by
`run_one_project_both_final.main`: a fixed header followed by the rows of
every bug whose worker returned (a worker exception is caught by the
pool-collection loop and contributes nothing). -/
def driverCombinedFile (proj : String) (bugs : List String)
    (fss : String → BugFS) (ws : String → BugWorld) : List (List String) :=
  ["engine", "project", "bug", "mutants_total", "killed", "survived"] ::
    bugs.flatMap (fun b =>
      match (process_one_bug proj b (fss b) (ws b)).1 with
      | Except.ok rows => rows
      | Except.error _ => [])

/-- Ordering of `sorted(agg_by_tool.items())` keys. -/
def pairLe (a b : String × String) : Bool :=
  decide (a.1 < b.1 ∨ (a.1 = b.1 ∧ a.2 ≤ b.2))

/-- Ordering of `sorted(...)` on strings. -/
def strLe (a b : String) : Bool := decide (a ≤ b)

/-- `mutation_summary_by_project.csv` as written by
`summarize_mutation_by_project.main`: the per-(project, tool) rows then
the per-project MAJOR+PIT rows, each
`[project, tool, bugs_covered, mutants_total, killed, survived,
kill_rate]`; the file is created only when there is at least one row
(`if proj_rows:`), so an empty scan writes nothing. `krFormat` stands for
the `f"{...:.3f}"` float formatting of the kill rate, which the stated
properties do not observe. -/
def aggregatorProjFile (krFormat : Int → Int → String) (perBug : List PB) :
    Option (List (List String)) :=
  let keysT := ((perBug.map (fun e => (e.proj, e.tool))).dedup).mergeSort
    pairLe
  let keysA := ((perBug.map PB.proj).dedup).mergeSort strLe
  let projRows :=
    keysT.map (fun k =>
      let v := lookupT (agg_by_tool perBug) k
      let bc := (((perBug.filter
        (fun e => decide ((e.proj, e.tool) = k))).map PB.bug).dedup).length
      [k.1, k.2, toString bc, toString v.1, toString v.2.1,
       toString v.2.2, krFormat v.2.1 v.1]) ++
    keysA.map (fun p =>
      let v := lookupT (agg_all perBug) p
      let bc := (((perBug.filter
        (fun e => decide (e.proj = p))).map PB.bug).dedup).length
      [p, "MAJOR+PIT", toString bc, toString v.1, toString v.2.1,
       toString v.2.2, krFormat v.2.1 v.1])
  match projRows with
  | [] => none
  | _ :: _ =>
    some (["project", "tool", "bugs_covered", "mutants_total", "killed",
           "survived", "kill_rate"] :: projRows)

/-- One bug directory under a logs root, as seen by
`compute_patches.run_for_logs_root`. -/
structure BugDirInput where
  project : String
  bugName : String
  kill : Option (List (List String))
  mutantsLog : Option (List String)

/-- `compute_patches.read_mutants_log`: `{}` when the file is missing;
otherwise map mutant id to the stripped operator field of each line
containing a colon. -/
def read_mutants_log (file : Option (List String)) : List (Int × String) :=
  match file with
  | none => []
  | some lines =>
    lines.foldl
      (fun acc line0 =>
        match pySplit (pyStrip line0) ':' with
        | p0 :: p1 :: _ =>
          match pyInt p0 with
          | some mid => dictInsert acc mid (pyStrip p1)
          | none => acc
        | _ => acc)
      []

/-- `ops.get(mid, "UNKNOWN")`. -/
def opLookup (m : List (Int × String)) (k : Int) : String :=
  match m.find? (fun p => decide (p.1 = k)) with
  | some p => p.2
  | none => "UNKNOWN"

/-- The operators of one bug's plausible (LIVE) mutants, in map order. -/
def bugPlausibleOps (b : BugDirInput) (rows : List (List String)) :
    List String :=
  let status := read_kill_file rows
  let ops := read_mutants_log b.mutantsLog
  (status.filter (fun p => p.2 = "LIVE")).map (fun p => opLookup ops p.1)

/-- Ordering of `sorted(counter.items())`. -/
def opCntLe (a b : String × Nat) : Bool :=
  decide (a.1 < b.1 ∨ (a.1 = b.1 ∧ a.2 ≤ b.2))

/-- The CSV files written by `compute_patches.run_for_logs_root` as
`(path, rows)` pairs: nothing at all when there are no matching bug
directories (early return) or no processed project; otherwise, for each
project in sorted order, `per_bug_summary.csv`, `per_project_summary.csv`
and `operator_usage.csv`. -/
def run_for_logs_root_files (bugDirs : List BugDirInput) :
    List (String × List (List String)) :=
  if bugDirs.isEmpty then []
  else
    let processed := bugDirs.filterMap
      (fun b => b.kill.map (fun rows => (b, rows)))
    let projects := ((processed.map (fun x => x.1.project)).dedup).mergeSort
      strLe
    projects.flatMap (fun p =>
      let mine := processed.filter (fun x => decide (x.1.project = p))
      let perBugRows := mine.map (fun x =>
        let t := bugTotals x.2
        [p, x.1.bugName, toString t.1, toString t.2.1, toString t.2.2])
      let totals := projTotals (mine.map (fun x => x.2))
      let opsCounter := mine.foldl
        (fun acc x => (bugPlausibleOps x.1 x.2).foldl counterInc acc) []
      let opRows := (opsCounter.mergeSort opCntLe).map
        (fun oc => [p, oc.1, toString oc.2])
      [("results/" ++ p ++ "/per_bug_summary.csv",
        ["Project", "Bug", "TotalMutants", "Plausible(LIVE)", "Incorrect"]
          :: perBugRows),
       ("results/" ++ p ++ "/per_project_summary.csv",
        ["Project", "NumBugs", "TotalMutants", "Plausible(LIVE)",
         "Incorrect"] ::
          [[p, toString mine.length, toString totals.1, toString totals.2.1,
            toString totals.2.2]]),
       ("results/" ++ p ++ "/operator_usage.csv",
        ["Project", "Operator", "PlausibleCount"] :: opRows)])

/-- Counterexample to C8: with no per-bug input the aggregator's project
writer and the patch computation complete but emit no CSV file at all —
in particular not a headers-only one — only the driver writes a
headers-only combined CSV. -/
theorem zero_bugs_reporting_counterexample :
    aggregatorProjFile (fun _ _ => "0.000") [] = none ∧
    aggregatorProjFile (fun _ _ => "0.000") [] ≠
      some [["project", "tool", "bugs_covered", "mutants_total", "killed",
             "survived", "kill_rate"]] ∧
    run_for_logs_root_files [] = [] := by
  refine ⟨?_, ?_, rfl⟩
  · simp [aggregatorProjFile]
  · simp [aggregatorProjFile]

/-- C8 (amended): with zero bugs every reporting stage completes without
raising (each embedded stage is a total function); the driver emits a
headers-only combined CSV, while the aggregator's project writer and the
patch computation emit no files at all. -/
theorem zero_bugs_reporting_amended (proj : String) (fss : String → BugFS)
    (ws : String → BugWorld) (krFormat : Int → Int → String) :
    driverCombinedFile proj [] fss ws =
      [["engine", "project", "bug", "mutants_total", "killed",
        "survived"]] ∧
    aggregatorProjFile krFormat [] = none ∧
    run_for_logs_root_files [] = [] := by
  refine ⟨rfl, ?_, rfl⟩
  simp [aggregatorProjFile]

end Mutation
